import Mathlib

/-!
Shallow embedding of the `gormtool` code generator (`src/main.go`) and
verification of the specification claims about it.

The program scans Go source files for struct types carrying a
`TableName() string` method, resolves a storage column and primary-key flag
for each struct field from its `gorm`/`json` struct tags (falling back to a
snake-case transliteration of the field name), and renders the resulting
models through header/content templates into size-bounded output files.

Machine strings are modelled as Lean `String`s over their character lists;
all inputs in this development are ASCII, so byte positions and character
positions coincide.
-/

set_option autoImplicit false

namespace GormTool

/-! ### String helpers -/

/-- Concatenation of a list of strings (the byte stream appended to the
output buffer). -/
def strJoin : List String → String
  | [] => ""
  | s :: rest => s ++ strJoin rest

theorem str_data_eq_nil_iff (s : String) : s.data = [] ↔ s = "" := by
  constructor
  · intro h
    apply String.ext
    rw [h]
  · intro h
    rw [h]

theorem str_empty_append (s : String) : "" ++ s = s := by
  apply String.ext
  rw [String.data_append]
  rfl

theorem str_append_empty (s : String) : s ++ "" = s := by
  apply String.ext
  rw [String.data_append]
  exact List.append_nil _

theorem str_append_assoc (a b c : String) : a ++ b ++ c = a ++ (b ++ c) := by
  apply String.ext
  simp only [String.data_append]
  exact List.append_assoc _ _ _

theorem str_length_data (s : String) : s.length = s.data.length := rfl

theorem str_length_eq_zero_iff (s : String) : s.length = 0 ↔ s = "" := by
  rw [str_length_data, List.length_eq_zero, str_data_eq_nil_iff]

theorem strJoin_append (l1 l2 : List String) :
    strJoin (l1 ++ l2) = strJoin l1 ++ strJoin l2 := by
  induction l1 with
  | nil => simp [strJoin, str_empty_append]
  | cons s rest ih => simp [strJoin, ih, str_append_assoc]

theorem strJoin_singleton (s : String) : strJoin [s] = s := by
  simp [strJoin, str_append_empty]

/-! ### Snake-case transliteration (source: `snakeString`, main.go:267-281)

`snakeString` first textually replaces every literal `"ID"` with `"id"`
(`strings.ReplaceAll`), then walks the runes left to right, inserting an
underscore before each non-initial ASCII-uppercase rune and lowercasing it
(`v + ('a' - 'A')`); other runes are copied unchanged. -/

/-- `strings.ReplaceAll(str, "ID", "id")`: left-to-right, non-overlapping
replacement of the literal substring `ID` by `id`. -/
def replaceAllID : List Char → List Char
  | 'I' :: 'D' :: rest => 'i' :: 'd' :: replaceAllID rest
  | c :: rest => c :: replaceAllID rest
  | [] => []

/-- The indexed rune walk of `snakeString`: `i` is the index of the head of
`cs` within the full (already `ID`-replaced) rune slice. -/
def snakeGo : List Char → Nat → List Char
  | [], _ => []
  | c :: rest, i =>
    if 'A' ≤ c ∧ c ≤ 'Z' then
      (if i ≠ 0 then ['_'] else []) ++ [Char.ofNat (c.toNat + 32)] ++ snakeGo rest (i + 1)
    else c :: snakeGo rest (i + 1)

/-- `snakeString` (main.go:267): snake-case transliteration of a field name. -/
def snakeString (s : String) : String :=
  String.mk (snakeGo (replaceAllID s.data) 0)

/-- Spec-side restatement of the transliteration, written from the claim's
words: replace every literal `ID` with `id` first, then map each rune,
inserting an underscore before each non-initial uppercase letter and
lowercasing it.  Used to confirm C7 by comparison with `snakeString`. -/
def snakeSpec (s : String) : String :=
  String.mk (((replaceAllID s.data).enum.map fun p =>
    if 'A' ≤ p.2 ∧ p.2 ≤ 'Z' then
      (if p.1 ≠ 0 then ['_'] else []) ++ [Char.ofNat (p.2.toNat + 32)]
    else [p.2]).flatten)

theorem snakeGo_eq_enumFrom (cs : List Char) (i : Nat) :
    snakeGo cs i = ((List.enumFrom i cs).map fun p =>
      if 'A' ≤ p.2 ∧ p.2 ≤ 'Z' then
        (if p.1 ≠ 0 then ['_'] else []) ++ [Char.ofNat (p.2.toNat + 32)]
      else [p.2]).flatten := by
  induction cs generalizing i with
  | nil => simp [snakeGo]
  | cons c rest ih =>
    simp only [snakeGo, List.enumFrom, List.map, List.flatten, ih]
    split
    · simp
    · simp

/-- The source transliteration coincides with the spec's description. -/
theorem snakeString_eq_snakeSpec (s : String) : snakeString s = snakeSpec s := by
  unfold snakeString snakeSpec
  rw [snakeGo_eq_enumFrom]
  rfl

theorem replaceAllID_ne_nil (cs : List Char) (h : cs ≠ []) : replaceAllID cs ≠ [] := by
  match cs with
  | [] => exact absurd rfl h
  | c :: rest =>
    unfold replaceAllID
    split <;> simp_all

theorem snakeGo_ne_nil (cs : List Char) (i : Nat) (h : cs ≠ []) : snakeGo cs i ≠ [] := by
  match cs with
  | [] => exact absurd rfl h
  | c :: rest =>
    unfold snakeGo
    split <;> simp

/-- A field with a non-empty name always snake-cases to a non-empty column. -/
theorem snakeString_ne_empty (s : String) (h : s ≠ "") : snakeString s ≠ "" := by
  unfold snakeString
  intro hc
  have hdata : s.data ≠ [] := fun hn => h ((str_data_eq_nil_iff s).mp hn)
  have hne : snakeGo (replaceAllID s.data) 0 ≠ [] :=
    snakeGo_ne_nil _ _ (replaceAllID_ne_nil _ hdata)
  exact hne ((str_data_eq_nil_iff (String.mk (snakeGo (replaceAllID s.data) 0))).mpr hc)

example : snakeString "UserID" = "userid" := by decide
example : snakeString "UserName" = "user_name" := by decide
example : snakeString "Id" = "id" := by decide

/-! ### Struct-tag lookup (external collaborator: `reflect.StructTag.Get`)

`buildModelFieldInfo` (main.go:228) hands a slice of the raw tag literal to
`reflect.StructTag.Get`.  The scanning loop below models the standard
library's `StructTag.Lookup`: skip spaces, scan a key up to `:`, require
`:"`, scan a double-quoted value (a backslash skips the next byte), and
unquote the value when the key matches.  A malformed pair — in particular a
value whose closing quote is missing — makes the lookup stop and report the
key as absent, which is exactly the behaviour the `[1:len-2]` slice of the
source triggers (see C4). -/

/-- Scan a double-quoted value body: return the bytes before the closing
quote and the remainder after it, or `none` when the closing quote is
missing (the `i >= len(tag)` break in `StructTag.Lookup`). -/
def scanQuoted : List Char → Option (List Char × List Char)
  | [] => none
  | '"' :: rest => some ([], rest)
  | '\\' :: c :: rest => (scanQuoted rest).map fun p => ('\\' :: c :: p.1, p.2)
  | '\\' :: [] => none
  | c :: rest => (scanQuoted rest).map fun p => (c :: p.1, p.2)

/-- `strconv.Unquote` on the quoted value, restricted to the escape
sequences that occur in struct tags in this domain (`\\` and `\"`); any
other escape reports an error (`none`), like `Unquote` does for invalid
sequences. -/
def unquoteBody : List Char → Option (List Char)
  | [] => some []
  | '\\' :: '\\' :: rest => (unquoteBody rest).map ('\\' :: ·)
  | '\\' :: '"' :: rest => (unquoteBody rest).map ('"' :: ·)
  | '\\' :: _ => none
  | c :: rest => (unquoteBody rest).map (c :: ·)

/-- One byte of a tag key, as scanned by `StructTag.Lookup`. -/
def tagKeyChar (c : Char) : Prop := ' ' < c ∧ c ≠ ':' ∧ c ≠ '"' ∧ c.toNat ≠ 0x7f

instance (c : Char) : Decidable (tagKeyChar c) := by
  unfold tagKeyChar; infer_instance

/-- The scanning loop of `reflect.StructTag.Lookup`.  `fuel` bounds the
number of key/value pairs processed; every iteration consumes at least one
byte, so `tag.length + 1` is always enough. -/
def lookupLoop : Nat → List Char → String → Option String
  | 0, _, _ => none
  | fuel + 1, t0, key =>
    let t := t0.dropWhile (· = ' ')
    if t.isEmpty then none
    else
      let i := (t.takeWhile fun c => decide (tagKeyChar c)).length
      if i = 0 then none
      else if t.length ≤ i + 1 then none
      else if t.get? i ≠ some ':' then none
      else if t.get? (i + 1) ≠ some '"' then none
      else
        match scanQuoted (t.drop (i + 2)) with
        | none => none
        | some (val, rest) =>
          if key = String.mk (t.take i) then (unquoteBody val).map String.mk
          else lookupLoop fuel rest key

/-- `reflect.StructTag.Get`: the looked-up value, or `""` when the key is
absent or the tag is malformed. -/
def structTagGet (t : List Char) (key : String) : String :=
  (lookupLoop (t.length + 1) t key).getD ""

/-- The slice `af.Tag.Value[1 : len(af.Tag.Value)-2]` of main.go:228 applied
to the raw tag literal (which includes its surrounding backquotes).  `none`
models the slice-bounds panic when the literal is shorter than 3 bytes.
Note the upper bound `len-2`: the slice keeps characters 1 … len-3 and so
drops the final character of the tag content (the closing double quote of
the last key/value pair) along with the closing backquote. -/
def slicedTag (v : String) : Option (List Char) :=
  if v.length < 3 then none
  else some ((v.data.drop 1).take (v.length - 3))

-- A lone gorm pair loses its closing quote under the slice, so the lookup
-- fails and the gorm key is reported absent.
example : slicedTag "`gorm:\"column:foo\"`" =
    some "gorm:\"column:foo".data := by decide
example : structTagGet "gorm:\"column:foo".data "gorm" = "" := by decide
-- When the gorm pair is not last, it survives the slice and parses.
example : structTagGet "gorm:\"column:uid;primaryKey\" json:\"a".data "gorm" =
    "column:uid;primaryKey" := by decide
example : structTagGet "gorm:\"primaryKey\" json:\"x".data "gorm" =
    "primaryKey" := by decide
example : structTagGet "json:\"nick".data "json" = "" := by decide
example : structTagGet "json:\"nick\" x:\"y".data "json" = "nick" := by decide

/-! ### Syntax-tree data model

Only the parts of `go/ast` the program inspects are modelled.  A field's
type expression is a chain of pointer stars over a base that is a plain
identifier, a qualified `pkg.Sel` selector (whose `X` the source asserts to
be an identifier), or some other expression form. -/

inductive TypeExpr where
  | ident (name : String)
  | selector (pkg sel : String)
  | star (inner : TypeExpr)
  | other
deriving DecidableEq

/-- One struct field declaration (`ast.Field`): its identifier list
(`af.Names`, empty for an embedded field), its raw tag literal including the
surrounding backquotes (`af.Tag.Value`; `none` when `af.Tag` is nil), and
its type expression. -/
structure Field where
  names : List String
  tag : Option String
  type : TypeExpr
deriving DecidableEq

/-- A qualifying type's declaration handle (`*ast.Object` resolved through
`TypeSpec`/`StructType` as main.go:204 does): the type name and its struct
field list. -/
structure Object where
  name : String
  fields : List Field
deriving DecidableEq

/-- `ModelFieldInfo` (main.go:46).  `Typ` models the Go field `Type` (the
word `Type` is reserved in Lean); `Comments` is declared in the source but
never assigned, so it is always empty. -/
structure ModelFieldInfo where
  Name : String
  Typ : String
  Column : String
  PrimaryKey : Bool
  Comments : List String
deriving DecidableEq

/-- `ModelInfo` (main.go:54). `Comments` is never assigned by the source. -/
structure ModelInfo where
  Name : String
  Fields : List ModelFieldInfo
  Comments : List String
deriving DecidableEq

/-! ### Tag/Name Resolver (source: `buildModelFieldInfo`, main.go:223-265) -/

/-- `strings.Split(s, ";")` on the character list: split at every `;`,
yielding `[""] `for the empty string and keeping empty tokens. -/
def splitSemiChars : List Char → List (List Char)
  | [] => [[]]
  | ';' :: rest => [] :: splitSemiChars rest
  | c :: rest =>
    match splitSemiChars rest with
    | s :: ss => (c :: s) :: ss
    | [] => [[c]]

/-- `strings.Split(s, ";")`. -/
def splitSemi (s : String) : List String := (splitSemiChars s.data).map String.mk

example : splitSemi "column:uid;primaryKey" = ["column:uid", "primaryKey"] := by decide
example : splitSemi "" = [""] := by decide
example : splitSemi "a;;b;" = ["a", "", "b", ""] := by decide

/-- The token scan over the semicolon-split gorm value (main.go:230-236):
`column:<v>` overwrites the column, `primaryKey`/`primary_key` sets the
flag, anything else is ignored.  The accumulator starts from the zero
values of the Go struct. -/
def gormScan (tokens : List String) : String × Bool :=
  tokens.foldl
    (fun acc v =>
      if "column:".data.isPrefixOf v.data then (String.mk (v.data.drop 7), acc.2)
      else if v = "primaryKey" ∨ v = "primary_key" then (acc.1, true)
      else acc)
    ("", false)

/-- Column/primary-key resolution for one field (main.go:225-242). `none`
models the slice-bounds panic on a tag literal shorter than 3 bytes. -/
def resolveColumnPK (name : String) (tagLit : Option String) : Option (String × Bool) :=
  match tagLit with
  | none => some (snakeString name, false)
  | some v =>
    if v = "" then some (snakeString name, false)
    else
      match slicedTag v with
      | none => none
      | some t =>
        let gormVal := structTagGet t "gorm"
        if gormVal ≠ "" then some (gormScan (splitSemi gormVal))
        else
          let jsonVal := structTagGet t "json"
          if jsonVal ≠ "" then some (jsonVal, false)
          else some (snakeString name, false)

/-- The gorm value the resolver actually scans, when it reaches the gorm
branch: the tag literal must be present, non-empty, sliceable, and its
sliced content must yield a non-empty `gorm` key.  Used to state C6. -/
def gormTokensValue (tagLit : Option String) : Option String :=
  match tagLit with
  | none => none
  | some v =>
    if v = "" then none
    else
      match slicedTag v with
      | none => none
      | some t =>
        let gormVal := structTagGet t "gorm"
        if gormVal = "" then none else some gormVal

/-- Strip the pointer stars of a type expression, counting them
(main.go:244-251). -/
def unwrapStars : TypeExpr → TypeExpr × Nat
  | .star inner =>
    let p := unwrapStars inner
    (p.1, p.2 + 1)
  | t => (t, 0)

/-- Re-prefix one `*` per stripped indirection level (the deferred loop of
main.go:252-256). -/
def starPrefixes : Nat → String → String
  | 0, s => s
  | n + 1, s => starPrefixes n ("*" ++ s)

/-- The base-type switch of main.go:257-263; a form that is neither an
identifier nor a selector leaves the zero value `""`. -/
def baseTypeName : TypeExpr → String
  | .ident n => n
  | .selector p s => p ++ "." ++ s
  | _ => ""

/-- `buildModelFieldInfo` (main.go:223): resolve one field declaration.
`none` models the two runtime panics on this path: `af.Names[0]` on an
embedded field, and the tag slice on a literal shorter than 3 bytes. -/
def buildModelFieldInfo (af : Field) : Option ModelFieldInfo :=
  match af.names with
  | [] => none
  | name :: _ =>
    match resolveColumnPK name af.tag with
    | none => none
    | some cp =>
      let p := unwrapStars af.type
      some { Name := name, Typ := starPrefixes p.2 (baseTypeName p.1),
             Column := cp.1, PrimaryKey := cp.2, Comments := [] }

-- C4's scenario: a lone `gorm:"column:foo"` tag is dropped by the slice and
-- the column falls back to the snake-cased field name.
example : buildModelFieldInfo
    { names := ["Name"], tag := some "`gorm:\"column:foo\"`", type := .ident "string" } =
    some { Name := "Name", Typ := "string", Column := "name",
           PrimaryKey := false, Comments := [] } := by decide
-- A gorm pair followed by another pair parses; last column token wins.
example : buildModelFieldInfo
    { names := ["Uid"], tag := some "`gorm:\"column:a;column:uid;primaryKey\" json:\"u\"`",
      type := .ident "int" } =
    some { Name := "Uid", Typ := "int", Column := "uid",
           PrimaryKey := true, Comments := [] } := by decide
-- C6's scenario: a parsed gorm value with no column token leaves the column
-- empty; there is no snake-case fallback on this branch.
example : buildModelFieldInfo
    { names := ["Age"], tag := some "`gorm:\"primaryKey\" json:\"x\"`", type := .ident "int" } =
    some { Name := "Age", Typ := "int", Column := "",
           PrimaryKey := true, Comments := [] } := by decide
-- No tag: snake-case of the name; pointer stars are re-prefixed.
example : buildModelFieldInfo
    { names := ["UserName"], tag := none, type := .star (.star (.selector "sql" "NullString")) } =
    some { Name := "UserName", Typ := "**sql.NullString", Column := "user_name",
           PrimaryKey := false, Comments := [] } := by decide

/-! ### Model Builder (source: `buildModelInfo`, main.go:202-221)

The loop keeps a pointer `primaryKey` into the field slice: a resolver-
flagged field always overwrites it, and a field whose column is `"id"` sets
it only while it is still nil.  After the loop the pointed-to field's flag
is set to `true` — a no-op whenever the pointer ended on a resolver-flagged
field, so every resolver flag survives into the finished model.  The
pointer is modelled by its index. -/

/-- The pointer scan of main.go:207-216: `i` is the index of the head of
`fs` in the full field slice and `cur` the index the pointer currently
holds. -/
def pkScan : List ModelFieldInfo → Nat → Option Nat → Option Nat
  | [], _, cur => cur
  | f :: rest, i, cur =>
    if f.PrimaryKey then pkScan rest (i + 1) (some i)
    else if cur = none ∧ f.Column = "id" then pkScan rest (i + 1) (some i)
    else pkScan rest (i + 1) cur

/-- Write `PrimaryKey := true` through the pointer (main.go:217-219). -/
def setFlagAt : List ModelFieldInfo → Nat → List ModelFieldInfo
  | [], _ => []
  | f :: rest, 0 => { f with PrimaryKey := true } :: rest
  | f :: rest, j + 1 => f :: setFlagAt rest j

/-- The final primary-key assignment of `buildModelInfo`. -/
def applyPK (fs : List ModelFieldInfo) : List ModelFieldInfo :=
  match pkScan fs 0 none with
  | none => fs
  | some j => setFlagAt fs j

/-- `buildModelInfo` (main.go:202): build the model for one qualifying
type.  `none` propagates a `buildModelFieldInfo` panic. -/
def buildModelInfo (obj : Object) : Option ModelInfo :=
  match obj.fields.mapM buildModelFieldInfo with
  | none => none
  | some fs => some { Name := obj.name, Fields := applyPK fs, Comments := [] }

/-! Spec-side description of the primary-key selection, used for the
amended C1/C5: when the resolver flagged at least one field the finished
flags are exactly the resolver's flags; otherwise the first field whose
column is exactly `"id"` is the unique flagged field. -/

/-- Index of the last resolver-flagged field, if any. -/
def lastFlagIdx? : List ModelFieldInfo → Option Nat
  | [] => none
  | f :: rest =>
    match lastFlagIdx? rest with
    | some j => some (j + 1)
    | none => if f.PrimaryKey then some 0 else none

/-- Index of the first field whose resolved column is exactly `"id"`. -/
def firstIdIdx? : List ModelFieldInfo → Option Nat
  | [] => none
  | f :: rest => if f.Column = "id" then some 0 else (firstIdIdx? rest).map (· + 1)

/-- `oneHot n j`: the flag list of length `n` that is `true` exactly at
position `j`. -/
def oneHot : Nat → Nat → List Bool
  | 0, _ => []
  | n + 1, 0 => true :: List.replicate n false
  | n + 1, j + 1 => false :: oneHot n j

/-- Spec-side flag assignment, written from the amended claim: the
resolver's flags when it flagged anything, otherwise a single inferred flag
at the first `"id"` column (or no flag at all). -/
def specFlags (rs : List ModelFieldInfo) : List Bool :=
  if rs.any (·.PrimaryKey) then rs.map (·.PrimaryKey)
  else
    match firstIdIdx? rs with
    | none => rs.map (·.PrimaryKey)
    | some j => oneHot rs.length j

-- Two resolver-flagged fields: both remain flagged in the finished model.
example : (buildModelInfo
    { name := "M",
      fields := [
        { names := ["A"], tag := some "`gorm:\"primaryKey\" json:\"a\"`", type := .ident "int" },
        { names := ["B"], tag := some "`gorm:\"primaryKey\" json:\"b\"`", type := .ident "int" }] }).map
      (fun m => m.Fields.map (·.PrimaryKey)) = some [true, true] := by decide
-- A flagged field suppresses the id inference even when the id field
-- comes first in declaration order.
example : (buildModelInfo
    { name := "M",
      fields := [
        { names := ["Id"], tag := none, type := .ident "int" },
        { names := ["B"], tag := some "`gorm:\"primaryKey\" json:\"b\"`", type := .ident "int" }] }).map
      (fun m => m.Fields.map (·.PrimaryKey)) = some [false, true] := by decide
-- No resolver flag: the first field with column "id" is inferred.
example : (buildModelInfo
    { name := "M",
      fields := [
        { names := ["Name"], tag := none, type := .ident "string" },
        { names := ["Id"], tag := none, type := .ident "int" }] }).map
      (fun m => m.Fields.map (·.PrimaryKey)) = some [false, true] := by decide

/-! ### Type Classifier (source: `isTablerFunc`, main.go:153-184)

A function declaration carries an optional receiver field list (`nil` for a
plain function), a name, a parameter field list (never nil in parsed
code), and an optional result field list (`nil` when the signature has no
results).  The source dereferences `decl.Recv.List` and
`decl.Type.Results.List` without nil checks; those dereferences are
modelled as the fault value `none`. -/

/-- The `X` of a starred receiver type: the source asserts it to an
identifier and reads its `Obj` (which may itself be nil). -/
inductive RecvBase where
  | ident (obj : Option Object)
  | nonIdent
deriving DecidableEq

/-- A receiver field's type expression, as far as the switch of
main.go:170-183 inspects it. -/
inductive RecvType where
  | ident (obj : Option Object)
  | star (base : RecvBase)
  | other
deriving DecidableEq

/-- `ast.FuncDecl`, reduced to what `isTablerFunc` reads. -/
structure FuncDecl where
  recv : Option (List RecvType)
  name : String
  params : List TypeExpr
  results : Option (List TypeExpr)
deriving DecidableEq

/-- `isTablerFunc` (main.go:153): classify one function declaration.  The
outer `none` models a nil-pointer dereference panic: `decl.Recv.List` when
the declaration has no receiver, and `decl.Type.Results.List` when a
parameterless `TableName` method has no result list. -/
def isTablerFunc (decl : FuncDecl) : Option (Option Object × Bool) :=
  match decl.recv with
  | none => none
  | some recvList =>
    if recvList.length = 0 then some (none, false)
    else if decl.name ≠ "TableName" then some (none, false)
    else if decl.params.length > 0 then some (none, false)
    else
      match decl.results with
      | none => none
      | some results =>
        if results.length ≠ 1 then some (none, false)
        else
          match results with
          | TypeExpr.ident tn :: _ =>
            if tn ≠ "string" then some (none, false)
            else
              match recvList with
              | RecvType.star (RecvBase.ident obj) :: _ => some (obj, true)
              | RecvType.star RecvBase.nonIdent :: _ => some (none, false)
              | RecvType.ident obj :: _ => some (obj, true)
              | _ => some (none, false)
          | _ => some (none, false)

-- A value receiver with a matching signature qualifies.
example : isTablerFunc
    { recv := some [RecvType.ident (some { name := "User", fields := [] })],
      name := "TableName", params := [], results := some [TypeExpr.ident "string"] } =
    some (some { name := "User", fields := [] }, true) := by decide
-- A plain top-level function (nil receiver) faults.
example : isTablerFunc
    { recv := none, name := "main", params := [], results := none } = none := by decide
-- A TableName method with no result list faults.
example : isTablerFunc
    { recv := some [RecvType.ident none], name := "TableName",
      params := [], results := none } = none := by decide
-- A wrongly named method is rejected before the Results dereference.
example : isTablerFunc
    { recv := some [RecvType.ident none], name := "Scan",
      params := [], results := none } = some (none, false) := by decide

/-! ### Source-unit walk (source: `getModelObjects`, main.go:62-76)

`packageMap` is the process-wide map seeded at most once per run via
`sync.Once`; the program only ever writes the single key
`Build.PackageKey()`, so the map is modelled by that optional single
entry.  The latch and map form the run state. -/

/-- A top-level declaration: a function declaration or anything else. -/
inductive Decl where
  | funcDecl (d : FuncDecl)
  | otherDecl
deriving DecidableEq

/-- A parsed source unit: its package identifier (`file.Name.Name`) and its
top-level declarations. -/
structure GoFile where
  pkgName : String
  decls : List Decl
deriving DecidableEq

/-- The run-scoped once-latch state: whether `once.Do` has fired, and the
single `packageMap` entry it writes. -/
structure RunState where
  onceDone : Bool
  packageMap : Option (String × String)
deriving DecidableEq

/-- The inner declaration loop of main.go:67-73 for one file, collecting
the (possibly nil) objects of qualifying declarations.  `none` propagates
an `isTablerFunc` panic. -/
def processFile : List Decl → List (Option Object) → Option (List (Option Object))
  | [], objs => some objs
  | Decl.funcDecl fd :: rest, objs =>
    match isTablerFunc fd with
    | none => none
    | some r => processFile rest (if r.2 then objs ++ [r.1] else objs)
  | Decl.otherDecl :: rest, objs => processFile rest objs

/-- `getModelObjects` (main.go:62): walk the source units in order,
seeding `packageMap` once from the first unit, and collect every
qualifying declaration's object. -/
def getModelObjects (pkgKey : String) :
    List GoFile → RunState → List (Option Object) → Option (RunState × List (Option Object))
  | [], st, objs => some (st, objs)
  | f :: rest, st, objs =>
    let st1 := if st.onceDone then st
               else { onceDone := true, packageMap := some (pkgKey, f.pkgName) }
    match processFile f.decls objs with
    | none => none
    | some objs1 => getModelObjects pkgKey rest st1 objs1

-- The latch fires on the first unit even when a later unit holds the
-- qualifying type, and is never overwritten.
example : getModelObjects "package"
    [{ pkgName := "models", decls := [] },
     { pkgName := "extra",
       decls := [Decl.funcDecl
         { recv := some [RecvType.ident none], name := "TableName",
           params := [], results := some [TypeExpr.ident "string"] }] }]
    { onceDone := false, packageMap := none } [] =
    some ({ onceDone := true, packageMap := some ("package", "models") }, [none]) := by decide

/-! ### Emission Pipeline (source: `generateFile`, main.go:78-132)

The two templates are parsed first (parse failures abort before any file
is written); the loop then renders a header into the empty buffer, renders
each model's content block, and flushes buffer, index and header flag
whenever the buffer has reached `maxSize` bytes, with a final flush of a
non-empty buffer after the loop.  Template execution is abstracted by its
observable behaviour: the bytes it appends to the buffer and the error it
returns.  File creation and writing are external and assumed to succeed;
a written file is recorded as its `(index, contents)` pair. -/

/-- The observable outcome of one `template.Execute` call: the bytes
appended to the buffer (possibly partial output on error) and the returned
error. -/
structure RenderResult where
  out : String
  err : Option String
deriving DecidableEq

/-- The loop state of `generateFile`: buffer, file index, header flag, and
the files written so far. -/
structure EmitState where
  buffer : String
  index : Nat
  setHeader : Bool
  files : List (Nat × String)
deriving DecidableEq

/-- The outcome of a `generateFile` run: the files written (earlier files
stay in place even when the run aborts) and the returned error. -/
structure EmitResult where
  files : List (Nat × String)
  err : Option String
deriving DecidableEq

/-- The content half of one loop iteration (main.go:119-126): append the
model's rendered block, then flush the buffer to a new file once it has
reached `maxSize` bytes.  main.go:119 assigns the content render error to
`err` but never tests it before `err` is overwritten, so the error is
dropped (see C3) and only the appended bytes matter here. -/
def contentFlush (maxSize : Nat) (cr : ModelInfo → RenderResult) (m : ModelInfo)
    (st : EmitState) : EmitState :=
  let buf := st.buffer ++ (cr m).out
  if buf.length < maxSize then { st with buffer := buf }
  else { buffer := "", index := st.index + 1, setHeader := false,
         files := st.files ++ [(st.index, buf)] }

/-- One full loop iteration (main.go:113-126): render the header into an
empty-of-header buffer first (a header render error aborts the run), then
run the content half.  `Sum.inl` is the aborting early return, `Sum.inr`
the state the next iteration starts from. -/
def emitIter (maxSize : Nat) (hr : RenderResult) (cr : ModelInfo → RenderResult)
    (m : ModelInfo) (st : EmitState) : Sum EmitResult EmitState :=
  if st.setHeader then Sum.inr (contentFlush maxSize cr m st)
  else
    match hr.err with
    | some e => Sum.inl { files := st.files, err := some e }
    | none =>
      Sum.inr (contentFlush maxSize cr m
        { st with buffer := st.buffer ++ hr.out, setHeader := true })

/-- The model loop of main.go:113-131 with its final flush of a non-empty
buffer (main.go:128-131).  `hr` is the header rendering against
`packageMap` (constant within one run), `cr` the per-model content
rendering. -/
def emitLoop (maxSize : Nat) (hr : RenderResult) (cr : ModelInfo → RenderResult) :
    List ModelInfo → EmitState → EmitResult
  | [], st =>
    if st.buffer.length = 0 then { files := st.files, err := none }
    else { files := st.files ++ [(st.index, st.buffer)], err := none }
  | m :: rest, st =>
    match emitIter maxSize hr cr m st with
    | Sum.inl res => res
    | Sum.inr st1 => emitLoop maxSize hr cr rest st1

/-- `generateFile` (main.go:78): template parsing, then the emission loop
from the empty initial state. -/
def generateFile (maxSize : Nat) (hParse cParse : Option String) (hr : RenderResult)
    (cr : ModelInfo → RenderResult) (models : List ModelInfo) : EmitResult :=
  match hParse with
  | some e => { files := [], err := some e }
  | none =>
    match cParse with
    | some e => { files := [], err := some e }
    | none =>
      emitLoop maxSize hr cr models
        { buffer := "", index := 0, setHeader := false, files := [] }

/-- The contents of an output file holding the content blocks of the model
group `g`: one header rendering followed by the group's blocks in order. -/
def fileOf (h : String) (c : ModelInfo → String) (g : List ModelInfo) : String :=
  h ++ strJoin (g.map c)

/-- Reference grouping of the emission loop: consecutive groups of models,
a group being closed as soon as header plus blocks reach `maxSize` bytes,
with a trailing partial group kept only when non-empty.  `acc` holds the
current group in reverse. -/
def splitGroups (h : String) (c : ModelInfo → String) (maxSize : Nat) :
    List ModelInfo → List ModelInfo → List (List ModelInfo)
  | [], acc => if acc.isEmpty then [] else [acc.reverse]
  | m :: rest, acc =>
    let acc1 := m :: acc
    if (fileOf h c acc1.reverse).length < maxSize then splitGroups h c maxSize rest acc1
    else acc1.reverse :: splitGroups h c maxSize rest []

-- C8's scenario: 5 models of 30 bytes, a 10-byte header, maxSize 50.
example :
    generateFile 50 none none { out := "0123456789", err := none }
      (fun m => { out := m.Name ++ "01234567890123456789012345678", err := none })
      [{ Name := "A", Fields := [], Comments := [] },
       { Name := "B", Fields := [], Comments := [] },
       { Name := "C", Fields := [], Comments := [] },
       { Name := "D", Fields := [], Comments := [] },
       { Name := "E", Fields := [], Comments := [] }] =
    { files := [
        (0, "0123456789" ++ "A01234567890123456789012345678" ++ "B01234567890123456789012345678"),
        (1, "0123456789" ++ "C01234567890123456789012345678" ++ "D01234567890123456789012345678"),
        (2, "0123456789" ++ "E01234567890123456789012345678")],
      err := none } := by decide
-- C3's scenario: the first model's render error is dropped; the run keeps
-- going, renders the second model, and reports success.
example :
    generateFile 5 none none { out := "H", err := none }
      (fun m => if m.Name = "A" then { out := "X", err := some "missing key" }
                else { out := "YYYY", err := none })
      [{ Name := "A", Fields := [], Comments := [] },
       { Name := "B", Fields := [], Comments := [] }] =
    { files := [(0, "HXYYYY")], err := none } := by decide
-- C2's degenerate corner: header and content both render to zero bytes, so
-- the buffer stays empty and the trailing model is never written anywhere.
example :
    generateFile 1 none none { out := "", err := none }
      (fun _ => { out := "", err := none })
      [{ Name := "A", Fields := [], Comments := [] }] =
    { files := [], err := none } := by decide

/-! ### Characterization of the primary-key pointer scan -/

theorem pkScan_some (fs : List ModelFieldInfo) (i c : Nat) :
    pkScan fs i (some c) = some (((lastFlagIdx? fs).map (· + i)).getD c) := by
  induction fs generalizing i c with
  | nil => simp [pkScan, lastFlagIdx?]
  | cons f rest ih =>
    simp only [pkScan, lastFlagIdx?]
    by_cases hf : f.PrimaryKey = true
    · rw [if_pos hf, ih, if_pos hf]
      cases hrest : lastFlagIdx? rest with
      | none => simp
      | some j =>
        simp only [Option.map_some', Option.getD_some, Option.some.injEq]
        omega
    · rw [if_neg hf, if_neg (by simp), ih, if_neg hf]
      cases hrest : lastFlagIdx? rest with
      | none => simp
      | some j =>
        simp only [Option.map_some', Option.getD_some, Option.some.injEq]
        omega

theorem pkScan_from_none (fs : List ModelFieldInfo) (i : Nat) :
    pkScan fs i none =
      match lastFlagIdx? fs with
      | some j => some (j + i)
      | none => (firstIdIdx? fs).map (· + i) := by
  induction fs generalizing i with
  | nil => simp [pkScan, lastFlagIdx?, firstIdIdx?]
  | cons f rest ih =>
    simp only [pkScan, lastFlagIdx?, firstIdIdx?]
    by_cases hf : f.PrimaryKey = true
    · rw [if_pos hf, pkScan_some]
      cases hrest : lastFlagIdx? rest with
      | none => simp [hf]
      | some j =>
        simp only [Option.map_some', Option.getD_some, Option.some.injEq]
        omega
    · rw [if_neg hf]
      by_cases hid : f.Column = "id"
      · rw [if_pos (by simp [hid]), pkScan_some]
        cases hrest : lastFlagIdx? rest with
        | none => simp [hf, hid]
        | some j =>
          simp only [Option.map_some', Option.getD_some, Option.some.injEq]
          omega
      · rw [if_neg (by simp [hid]), ih]
        cases hrest : lastFlagIdx? rest with
        | none =>
          simp only [hf, Bool.false_eq_true, if_false, if_neg hid]
          cases hfirst : firstIdIdx? rest with
          | none => simp
          | some j =>
            simp only [Option.map_some', Option.some.injEq]
            omega
        | some j =>
          simp only [Option.some.injEq]
          omega

theorem lastFlagIdx?_mem (fs : List ModelFieldInfo) (j : Nat)
    (h : lastFlagIdx? fs = some j) :
    ∃ f, fs.get? j = some f ∧ f.PrimaryKey = true := by
  induction fs generalizing j with
  | nil => simp [lastFlagIdx?] at h
  | cons f rest ih =>
    simp only [lastFlagIdx?] at h
    cases hrest : lastFlagIdx? rest with
    | some j0 =>
      rw [hrest] at h
      cases h
      obtain ⟨g, hg, hflag⟩ := ih j0 hrest
      exact ⟨g, hg, hflag⟩
    | none =>
      rw [hrest] at h
      by_cases hf : f.PrimaryKey = true
      · rw [if_pos hf] at h
        cases h
        exact ⟨f, rfl, hf⟩
      · rw [if_neg hf] at h
        cases h

theorem lastFlagIdx?_eq_none_iff (fs : List ModelFieldInfo) :
    lastFlagIdx? fs = none ↔ fs.any (·.PrimaryKey) = false := by
  induction fs with
  | nil => simp [lastFlagIdx?]
  | cons f rest ih =>
    simp only [lastFlagIdx?, List.any_cons]
    cases hrest : lastFlagIdx? rest with
    | some j => simp [← ih, hrest]
    | none =>
      by_cases hf : f.PrimaryKey = true <;> simp [hf, ← ih, hrest]

theorem setFlagAt_map_of_flagged (fs : List ModelFieldInfo) (j : Nat) (f : ModelFieldInfo)
    (hj : fs.get? j = some f) (hflag : f.PrimaryKey = true) :
    (setFlagAt fs j).map (·.PrimaryKey) = fs.map (·.PrimaryKey) := by
  induction fs generalizing j with
  | nil => simp [List.get?] at hj
  | cons g rest ih =>
    cases j with
    | zero =>
      simp only [List.get?] at hj
      cases hj
      simp [setFlagAt, hflag]
    | succ j0 =>
      simp only [List.get?] at hj
      simp [setFlagAt, ih j0 hj]

theorem firstIdIdx?_lt_length (fs : List ModelFieldInfo) (j : Nat)
    (h : firstIdIdx? fs = some j) : j < fs.length := by
  induction fs generalizing j with
  | nil => simp [firstIdIdx?] at h
  | cons f rest ih =>
    simp only [firstIdIdx?] at h
    by_cases hid : f.Column = "id"
    · rw [if_pos hid] at h
      cases h
      simp
    · rw [if_neg hid] at h
      cases hfirst : firstIdIdx? rest with
      | none => rw [hfirst] at h; cases h
      | some j0 =>
        rw [hfirst] at h
        cases h
        have := ih j0 hfirst
        simp only [List.length_cons]
        omega

theorem map_flag_of_any_false (fs : List ModelFieldInfo)
    (h : fs.any (·.PrimaryKey) = false) :
    fs.map (·.PrimaryKey) = List.replicate fs.length false := by
  induction fs with
  | nil => simp
  | cons f rest ih =>
    simp only [List.any_cons, Bool.or_eq_false_iff] at h
    simp [h.1, ih h.2, List.replicate_succ]

theorem setFlagAt_oneHot (fs : List ModelFieldInfo) (j : Nat)
    (hany : fs.any (·.PrimaryKey) = false) (hfirst : firstIdIdx? fs = some j) :
    (setFlagAt fs j).map (·.PrimaryKey) = oneHot fs.length j := by
  induction fs generalizing j with
  | nil => simp [firstIdIdx?] at hfirst
  | cons f rest ih =>
    simp only [List.any_cons, Bool.or_eq_false_iff] at hany
    simp only [firstIdIdx?] at hfirst
    by_cases hid : f.Column = "id"
    · rw [if_pos hid] at hfirst
      cases hfirst
      simp [setFlagAt, oneHot, map_flag_of_any_false rest hany.2]
    · rw [if_neg hid] at hfirst
      cases hrest : firstIdIdx? rest with
      | none => rw [hrest] at hfirst; cases hfirst
      | some j0 =>
        rw [hrest] at hfirst
        cases hfirst
        simp [setFlagAt, oneHot, hany.1, ih j0 hany.2 hrest]

/-- The flags of the finished field list are exactly the spec-side flag
assignment: the resolver's flags if it flagged anything, otherwise one
inferred flag at the first `"id"` column. -/
theorem applyPK_flags (fs : List ModelFieldInfo) :
    (applyPK fs).map (·.PrimaryKey) = specFlags fs := by
  unfold applyPK specFlags
  rw [pkScan_from_none]
  cases hlast : lastFlagIdx? fs with
  | some j =>
    have hany : fs.any (·.PrimaryKey) = true := by
      by_cases h : fs.any (·.PrimaryKey) = true
      · exact h
      · rw [(lastFlagIdx?_eq_none_iff fs).mpr (Bool.eq_false_iff.mpr h)] at hlast
        cases hlast
    rw [if_pos hany]
    obtain ⟨f, hf, hflag⟩ := lastFlagIdx?_mem fs j hlast
    simpa using setFlagAt_map_of_flagged fs j f hf hflag
  | none =>
    have hany : fs.any (·.PrimaryKey) = false := (lastFlagIdx?_eq_none_iff fs).mp hlast
    rw [if_neg (by simp [hany])]
    cases hfirst : firstIdIdx? fs with
    | none => simp
    | some j =>
      simpa using setFlagAt_oneHot fs j hany hfirst

/-! ### Characterization of the emission loop

With error-free renderings, the loop's run from a state holding the
partial group `acc` (in reverse) is described by the reference grouping
`splitGroups`.  The buffer of such a state is empty exactly when `acc` is
empty, provided the rendered header is non-empty. -/

theorem fileOf_snoc (h : String) (c : ModelInfo → String) (g : List ModelInfo)
    (m : ModelInfo) : fileOf h c (g ++ [m]) = fileOf h c g ++ c m := by
  unfold fileOf
  rw [List.map_append, strJoin_append, List.map_singleton, strJoin_singleton,
    str_append_assoc]

theorem fileOf_cons_reverse (h : String) (c : ModelInfo → String) (m : ModelInfo)
    (acc : List ModelInfo) :
    fileOf h c (m :: acc).reverse = fileOf h c acc.reverse ++ c m := by
  rw [List.reverse_cons, fileOf_snoc]

theorem fileOf_length_ne_zero (h : String) (c : ModelInfo → String)
    (g : List ModelInfo) (hne : h ≠ "") : (fileOf h c g).length ≠ 0 := by
  unfold fileOf
  rw [String.length_append]
  intro hc
  have hz : h.length = 0 := by omega
  exact hne ((str_length_eq_zero_iff h).mp hz)

/-- The loop state that holds the partial group `acc` (stored in reverse):
an empty buffer with the header flag down for an empty group, otherwise the
group's file contents with the flag up. -/
def groupState (h : String) (c : ModelInfo → String) (acc : List ModelInfo)
    (idx : Nat) (files : List (Nat × String)) : EmitState :=
  match acc with
  | [] => { buffer := "", index := idx, setHeader := false, files := files }
  | a :: as =>
    { buffer := fileOf h c (a :: as).reverse, index := idx,
      setHeader := true, files := files }

theorem emitIter_good (h : String) (c : ModelInfo → String) (maxSize : Nat)
    (m : ModelInfo) (acc : List ModelInfo) (idx : Nat) (files : List (Nat × String)) :
    emitIter maxSize { out := h, err := none } (fun m0 => { out := c m0, err := none }) m
      (groupState h c acc idx files) =
    Sum.inr
      (if (fileOf h c (m :: acc).reverse).length < maxSize then
        { buffer := fileOf h c (m :: acc).reverse, index := idx,
          setHeader := true, files := files }
      else
        { buffer := "", index := idx + 1, setHeader := false,
          files := files ++ [(idx, fileOf h c (m :: acc).reverse)] }) := by
  have hrev : fileOf h c ([m] : List ModelInfo) = h ++ c m := by
    unfold fileOf
    rw [List.map_singleton, strJoin_singleton]
  cases acc with
  | nil =>
    show emitIter maxSize { out := h, err := none } (fun m0 => { out := c m0, err := none }) m
      { buffer := "", index := idx, setHeader := false, files := files } = _
    simp only [emitIter, contentFlush, Bool.false_eq_true, if_false]
    rw [str_empty_append]
    simp only [List.reverse_cons, List.reverse_nil, List.nil_append, hrev]
  | cons a as =>
    show emitIter maxSize { out := h, err := none } (fun m0 => { out := c m0, err := none }) m
      { buffer := fileOf h c (a :: as).reverse, index := idx,
        setHeader := true, files := files } = _
    simp only [emitIter, contentFlush, if_true]
    rw [← fileOf_cons_reverse]

theorem emitLoop_ref (h : String) (c : ModelInfo → String) (maxSize : Nat)
    (hne : h ≠ "") (models : List ModelInfo) :
    ∀ (acc : List ModelInfo) (idx : Nat) (files : List (Nat × String)),
    emitLoop maxSize { out := h, err := none } (fun m0 => { out := c m0, err := none }) models
      (groupState h c acc idx files) =
    { files := files ++
        List.enumFrom idx ((splitGroups h c maxSize models acc).map (fileOf h c)),
      err := none } := by
  induction models with
  | nil =>
    intro acc idx files
    cases acc with
    | nil => simp [groupState, emitLoop, splitGroups]
    | cons a as =>
      show (if (fileOf h c (a :: as).reverse).length = 0 then
              ({ files := files, err := none } : EmitResult)
            else { files := files ++ [(idx, fileOf h c (a :: as).reverse)], err := none }) = _
      rw [if_neg (fileOf_length_ne_zero h c (a :: as).reverse hne)]
      simp [splitGroups, List.enumFrom]
  | cons m rest ih =>
    intro acc idx files
    show (match emitIter maxSize { out := h, err := none }
            (fun m0 => { out := c m0, err := none }) m (groupState h c acc idx files) with
          | Sum.inl res => res
          | Sum.inr st1 =>
            emitLoop maxSize { out := h, err := none }
              (fun m0 => { out := c m0, err := none }) rest st1) = _
    rw [emitIter_good]
    by_cases hlt : (fileOf h c (m :: acc).reverse).length < maxSize
    · rw [if_pos hlt]
      show emitLoop maxSize { out := h, err := none }
          (fun m0 => { out := c m0, err := none }) rest
          { buffer := fileOf h c (m :: acc).reverse, index := idx,
            setHeader := true, files := files } = _
      have hih := ih (m :: acc) idx files
      simp only [groupState] at hih
      rw [hih]
      simp only [splitGroups]
      rw [if_pos hlt]
    · rw [if_neg hlt]
      show emitLoop maxSize { out := h, err := none }
          (fun m0 => { out := c m0, err := none }) rest
          { buffer := "", index := idx + 1, setHeader := false,
            files := files ++ [(idx, fileOf h c (m :: acc).reverse)] } = _
      have hih := ih [] (idx + 1) (files ++ [(idx, fileOf h c (m :: acc).reverse)])
      simp only [groupState] at hih
      rw [hih]
      simp only [splitGroups]
      rw [if_neg hlt]
      simp only [List.map_cons, List.enumFrom_cons]
      conv_rhs => rw [List.append_cons files (idx, fileOf h c (m :: acc).reverse)]

/-- The reference groups partition the models in order. -/
theorem splitGroups_flatten (h : String) (c : ModelInfo → String) (maxSize : Nat)
    (models : List ModelInfo) :
    ∀ acc : List ModelInfo,
    (splitGroups h c maxSize models acc).flatten = acc.reverse ++ models := by
  induction models with
  | nil =>
    intro acc
    cases acc with
    | nil => simp [splitGroups]
    | cons a as => simp [splitGroups]
  | cons m rest ih =>
    intro acc
    simp only [splitGroups]
    by_cases hlt : (fileOf h c (m :: acc).reverse).length < maxSize
    · rw [if_pos hlt, ih (m :: acc)]
      simp [List.reverse_cons]
    · rw [if_neg hlt]
      simp [ih [], List.reverse_cons]

/-- Every reference group is non-empty. -/
theorem splitGroups_ne_nil (h : String) (c : ModelInfo → String) (maxSize : Nat)
    (models : List ModelInfo) :
    ∀ acc g, g ∈ splitGroups h c maxSize models acc → g ≠ [] := by
  induction models with
  | nil =>
    intro acc g hg
    cases acc with
    | nil => simp [splitGroups] at hg
    | cons a as =>
      simp only [splitGroups, List.isEmpty_cons, Bool.false_eq_true, if_false,
        List.mem_singleton] at hg
      subst hg
      simp
  | cons m rest ih =>
    intro acc g hg
    simp only [splitGroups] at hg
    by_cases hlt : (fileOf h c (m :: acc).reverse).length < maxSize
    · rw [if_pos hlt] at hg
      exact ih (m :: acc) g hg
    · rw [if_neg hlt] at hg
      rcases List.mem_cons.mp hg with h1 | h2
      · subst h1
        simp
      · exact ih [] g h2

/-- Every reference group but the last reaches the size bound. -/
theorem splitGroups_sizes (h : String) (c : ModelInfo → String) (maxSize : Nat)
    (models : List ModelInfo) :
    ∀ acc g, g ∈ (splitGroups h c maxSize models acc).dropLast →
      maxSize ≤ (fileOf h c g).length := by
  induction models with
  | nil =>
    intro acc g hg
    cases acc with
    | nil => simp [splitGroups] at hg
    | cons a as => simp [splitGroups] at hg
  | cons m rest ih =>
    intro acc g hg
    simp only [splitGroups] at hg
    by_cases hlt : (fileOf h c (m :: acc).reverse).length < maxSize
    · rw [if_pos hlt] at hg
      exact ih (m :: acc) g hg
    · rw [if_neg hlt] at hg
      cases hL : splitGroups h c maxSize rest [] with
      | nil =>
        rw [hL] at hg
        simp at hg
      | cons y L2 =>
        rw [hL, List.dropLast_cons₂] at hg
        rcases List.mem_cons.mp hg with h1 | h2
        · subst h1
          omega
        · refine ih [] g ?_
          rw [hL]
          exact h2

/-- Membership in all-but-the-last of an indexed list projects to the
underlying list. -/
theorem mem_enumFrom_dropLast {α : Type} (l : List α) :
    ∀ (n : Nat) (p : Nat × α), p ∈ (List.enumFrom n l).dropLast → p.2 ∈ l.dropLast := by
  induction l with
  | nil =>
    intro n p hp
    simp [List.enumFrom] at hp
  | cons x t ih =>
    intro n p hp
    cases t with
    | nil => simp [List.enumFrom] at hp
    | cons y t2 =>
      rw [List.enumFrom_cons, List.enumFrom_cons, List.dropLast_cons₂] at hp
      rw [List.dropLast_cons₂]
      rcases List.mem_cons.mp hp with h1 | h2
      · subst h1
        exact List.mem_cons_self _ _
      · have hmem := ih (n + 1) p (by rw [List.enumFrom_cons]; exact h2)
        exact List.mem_cons_of_mem _ hmem

/-! ### Remaining helper lemmas for the claims -/

/-- The resolved column is empty exactly when the resolver reached the gorm
branch and the token scan produced no non-empty column value. -/
theorem resolveColumnPK_empty_iff (name : String) (tagLit : Option String)
    (cp : String × Bool) (h : resolveColumnPK name tagLit = some cp)
    (hname : name ≠ "") :
    (cp.1 = "" ↔
      ∃ g, gormTokensValue tagLit = some g ∧ (gormScan (splitSemi g)).1 = "") := by
  have hsnake := snakeString_ne_empty name hname
  cases tagLit with
  | none =>
    simp only [resolveColumnPK, Option.some.injEq] at h
    subst h
    simp [gormTokensValue, hsnake]
  | some v =>
    simp only [resolveColumnPK, gormTokensValue] at h ⊢
    by_cases hv : v = ""
    · rw [if_pos hv] at h ⊢
      cases h
      simp [hsnake]
    · rw [if_neg hv] at h ⊢
      cases hst : slicedTag v with
      | none =>
        rw [hst] at h
        exact Option.noConfusion h
      | some t =>
        rw [hst] at h
        dsimp only at h
        dsimp only
        by_cases hg : structTagGet t "gorm" = ""
        · rw [if_neg (by simp [hg])] at h
          rw [if_pos hg]
          by_cases hj : structTagGet t "json" = ""
          · rw [if_neg (by simp [hj])] at h
            cases h
            simp [hsnake]
          · rw [if_pos hj] at h
            cases h
            simp [hj]
        · rw [if_pos hg] at h
          rw [if_neg hg]
          cases h
          simp

/-- The finished model's flags are the spec-side flag assignment over the
resolver's per-field results. -/
theorem buildModelInfo_flags (obj : Object) (rs : List ModelFieldInfo) (m : ModelInfo)
    (hrs : obj.fields.mapM buildModelFieldInfo = some rs)
    (hm : buildModelInfo obj = some m) :
    m.Fields.map (·.PrimaryKey) = specFlags rs := by
  unfold buildModelInfo at hm
  rw [hrs] at hm
  cases hm
  exact applyPK_flags rs

theorem count_true_pos_iff_any (rs : List ModelFieldInfo) :
    0 < ((rs.map (·.PrimaryKey)).count true) ↔ rs.any (·.PrimaryKey) = true := by
  induction rs with
  | nil => simp
  | cons f rest ih =>
    simp only [List.map_cons, List.count_cons, List.any_cons]
    by_cases hf : f.PrimaryKey = true
    · simp [hf]
    · simp only [Bool.or_eq_true]
      rw [show f.PrimaryKey = false from Bool.eq_false_iff.mpr hf]
      simp only [beq_iff_eq]
      rw [if_neg (by simp)]
      simp [ih]

theorem oneHot_count_le_one (n j : Nat) : (oneHot n j).count true ≤ 1 := by
  induction n generalizing j with
  | zero => simp [oneHot]
  | succ n0 ih =>
    cases j with
    | zero => simp [oneHot, List.count_cons, List.count_replicate]
    | succ j0 =>
      simp only [oneHot, List.count_cons]
      have := ih j0
      simp only [beq_iff_eq]
      rw [if_neg (by simp)]
      omega

/-- Once the latch has fired, the walk never changes the run state. -/
theorem getModelObjects_keeps (pkgKey : String) (files : List GoFile) :
    ∀ (st : RunState) (objs : List (Option Object)) (res : RunState × List (Option Object)),
    st.onceDone = true →
    getModelObjects pkgKey files st objs = some res → res.1 = st := by
  induction files with
  | nil =>
    intro st objs res _ h
    simp only [getModelObjects, Option.some.injEq] at h
    rw [← h]
  | cons f rest ih =>
    intro st objs res hdone h
    simp only [getModelObjects, hdone, if_true] at h
    cases hp : processFile f.decls objs with
    | none => rw [hp] at h; cases h
    | some objs1 =>
      rw [hp] at h
      exact ih st objs1 res hdone h

/-! ### Claim theorems -/

/-- Concrete fixture for C1: two fields both flagged `primaryKey` by the
resolver (their gorm pair is followed by a second pair, so it survives the
tag slice and parses). -/
def c1cxObj : Object :=
  { name := "M1",
    fields := [
      { names := ["A"], tag := some "`gorm:\"primaryKey\" json:\"a\"`", type := .ident "int" },
      { names := ["B"], tag := some "`gorm:\"primaryKey\" json:\"b\"`", type := .ident "int" }] }

/-- C1 (counterexample): with two resolver-flagged fields, the later
flagged field remains flagged in the finished model, so the first flagged
field is not "the" model's primary key — the finished descriptor
designates both. -/
theorem c1_counterexample :
    (buildModelInfo c1cxObj).map (fun m => m.Fields.map (·.PrimaryKey)) =
      some [true, true] := by decide

/-- C1 (amended): the finished flags are exactly `specFlags` of the
resolver's per-field results — when the resolver flags at least one field,
all its flags survive (the first flagged field among them, and no inferred
`id` flag is added); when it flags none, the first field with column `"id"`
is the unique flagged field. -/
theorem c1_amended_flags (obj : Object) (rs : List ModelFieldInfo) (m : ModelInfo)
    (hrs : obj.fields.mapM buildModelFieldInfo = some rs)
    (hm : buildModelInfo obj = some m) :
    m.Fields.map (·.PrimaryKey) = specFlags rs :=
  buildModelInfo_flags obj rs m hrs hm

/-- Witness fixture for C1: an untagged `Id` field and an untagged `Name`
field; inference flags the `Id` field. -/
def c1wObj : Object :=
  { name := "W1",
    fields := [
      { names := ["Id"], tag := none, type := .ident "int" },
      { names := ["Name"], tag := none, type := .ident "string" }] }

def c1wFields : List ModelFieldInfo :=
  [{ Name := "Id", Typ := "int", Column := "id", PrimaryKey := false, Comments := [] },
   { Name := "Name", Typ := "string", Column := "name", PrimaryKey := false, Comments := [] }]

def c1wModel : ModelInfo :=
  { Name := "W1",
    Fields :=
      [{ Name := "Id", Typ := "int", Column := "id", PrimaryKey := true, Comments := [] },
       { Name := "Name", Typ := "string", Column := "name", PrimaryKey := false, Comments := [] }],
    Comments := [] }

/-- C1 (witness): the amended statement at the concrete fixture. -/
theorem c1_amended_flags_w :
    c1wModel.Fields.map (·.PrimaryKey) = specFlags c1wFields :=
  c1_amended_flags c1wObj c1wFields c1wModel (by decide) (by decide)

/-- C2 (counterexample): with a header rendering to zero bytes and a model
whose content renders to zero bytes, the run emits no file at all — the
model is rendered but appears in no output file, although the input list
is non-empty. -/
theorem c2_counterexample :
    generateFile 1 none none { out := "", err := none }
        (fun _ => { out := "", err := none })
        [{ Name := "A", Fields := [], Comments := [] }] =
      { files := [], err := none } ∧
    ([{ Name := "A", Fields := [], Comments := [] }] : List ModelInfo) ≠ [] := by
  constructor
  · decide
  · decide

/-- C2 (amended): provided the rendered header is non-empty (and all
renders succeed), the run succeeds, the emitted files are indexed `0, 1,
…` in emission order, their contents are one header plus the content
blocks of consecutive non-empty groups that partition the models in input
order (so no block is split and every model appears exactly once), and
every file except possibly the last has at least `maxSize` bytes. -/
theorem c2_amended (maxSize : Nat) (h : String) (c : ModelInfo → String)
    (models : List ModelInfo) (hne : h ≠ "") :
    (generateFile maxSize none none { out := h, err := none }
        (fun m0 => { out := c m0, err := none }) models).err = none ∧
    ∃ groups : List (List ModelInfo),
      groups.flatten = models ∧ (∀ g ∈ groups, g ≠ []) ∧
      (generateFile maxSize none none { out := h, err := none }
          (fun m0 => { out := c m0, err := none }) models).files =
        List.enumFrom 0 (groups.map (fileOf h c)) ∧
      ∀ p ∈ (generateFile maxSize none none { out := h, err := none }
          (fun m0 => { out := c m0, err := none }) models).files.dropLast,
        maxSize ≤ p.2.length := by
  have hrun : generateFile maxSize none none { out := h, err := none }
      (fun m0 => { out := c m0, err := none }) models =
      { files := List.enumFrom 0 ((splitGroups h c maxSize models []).map (fileOf h c)),
        err := none } := by
    show emitLoop maxSize { out := h, err := none } (fun m0 => { out := c m0, err := none })
      models { buffer := "", index := 0, setHeader := false, files := [] } = _
    have hre := emitLoop_ref h c maxSize hne models [] 0 []
    simp only [groupState] at hre
    rw [hre]
    rw [List.nil_append]
  refine ⟨by rw [hrun], splitGroups h c maxSize models [], ?_, ?_, ?_, ?_⟩
  · simpa using splitGroups_flatten h c maxSize models []
  · intro g hg
    exact splitGroups_ne_nil h c maxSize models [] g hg
  · rw [hrun]
  · intro p hp
    rw [hrun] at hp
    have h2 := mem_enumFrom_dropLast ((splitGroups h c maxSize models []).map (fileOf h c)) 0 p hp
    rw [← List.map_dropLast] at h2
    obtain ⟨g, hgmem, hgeq⟩ := List.mem_map.mp h2
    rw [← hgeq]
    exact splitGroups_sizes h c maxSize models [] g hgmem

/-- C2 (witness): the amended statement at a concrete one-model input. -/
theorem c2_amended_w :
    (generateFile 3 none none { out := "PH", err := none }
        (fun _ => { out := "q", err := none })
        [{ Name := "W", Fields := [], Comments := [] }]).err = none ∧
    ∃ groups : List (List ModelInfo),
      groups.flatten = [{ Name := "W", Fields := [], Comments := [] }] ∧
      (∀ g ∈ groups, g ≠ []) ∧
      (generateFile 3 none none { out := "PH", err := none }
          (fun _ => { out := "q", err := none })
          [{ Name := "W", Fields := [], Comments := [] }]).files =
        List.enumFrom 0 (groups.map (fileOf "PH" (fun _ => "q"))) ∧
      ∀ p ∈ (generateFile 3 none none { out := "PH", err := none }
          (fun _ => { out := "q", err := none })
          [{ Name := "W", Fields := [], Comments := [] }]).files.dropLast,
        3 ≤ p.2.length :=
  c2_amended 3 "PH" (fun _ => "q") [{ Name := "W", Fields := [], Comments := [] }] (by decide)

/-- C3 (code bug): the first model's content render fails, but main.go:119
assigns the error to `err` without testing it; the run renders the second
model into the same buffer, flushes it as file 0 — partial first block
included — and returns success instead of aborting. -/
theorem c3_bug_eval :
    generateFile 5 none none { out := "H", err := none }
        (fun m => if m.Name = "A" then { out := "X", err := some "missing key" }
                  else { out := "YYYY", err := none })
        [{ Name := "A", Fields := [], Comments := [] },
         { Name := "B", Fields := [], Comments := [] }] =
      { files := [(0, "HXYYYY")], err := none } := by decide

/-- Concrete fixture for C4: a field whose only tag pair is
`gorm:"column:foo"`. -/
def c4Field : Field :=
  { names := ["Name"], tag := some "`gorm:\"column:foo\"`", type := .ident "string" }

/-- C4 (code bug): the slice `[1:len-2]` of main.go:228 drops the closing
double quote of the last tag pair, so `reflect.StructTag.Get("gorm")`
fails on the lone pair and returns `""`; the `column:foo` token is never
seen and the column falls back to the snake-cased field name instead of
`foo`. -/
theorem c4_bug_eval :
    buildModelFieldInfo c4Field =
      some { Name := "Name", Typ := "string", Column := "name",
             PrimaryKey := false, Comments := [] } := by decide

/-- Concrete fixture for C5: two resolver-flagged fields. -/
def c5cxObj : Object :=
  { name := "M5",
    fields := [
      { names := ["Uid"], tag := some "`gorm:\"column:uid;primary_key\" json:\"u\"`",
        type := .ident "int" },
      { names := ["Gid"], tag := some "`gorm:\"column:gid;primaryKey\" json:\"g\"`",
        type := .ident "int" }] }

/-- C5 (counterexample): a finished model carrying two fields with
`isPrimaryKey = true`, contradicting "at most one field has
`isPrimaryKey = true` after resolution". -/
theorem c5_counterexample :
    (buildModelInfo c5cxObj).map (fun m => (m.Fields.map (·.PrimaryKey)).count true) =
      some 2 := by decide

/-- C5 (amended): the finished model has at most one flagged field when
the resolver flagged none; when the resolver flagged at least one field,
the finished flags are exactly the resolver's flags (so two resolver
flags yield two flagged fields). -/
theorem c5_amended (obj : Object) (rs : List ModelFieldInfo) (m : ModelInfo)
    (hrs : obj.fields.mapM buildModelFieldInfo = some rs)
    (hm : buildModelInfo obj = some m) :
    ((rs.map (·.PrimaryKey)).count true = 0 →
      (m.Fields.map (·.PrimaryKey)).count true ≤ 1) ∧
    (0 < (rs.map (·.PrimaryKey)).count true →
      m.Fields.map (·.PrimaryKey) = rs.map (·.PrimaryKey)) := by
  have hflags := buildModelInfo_flags obj rs m hrs hm
  constructor
  · intro h0
    have hany : rs.any (·.PrimaryKey) = false := by
      by_cases ha : rs.any (·.PrimaryKey) = true
      · have := (count_true_pos_iff_any rs).mpr ha
        omega
      · exact Bool.eq_false_iff.mpr ha
    rw [hflags]
    unfold specFlags
    rw [if_neg (by simp [hany])]
    cases hfirst : firstIdIdx? rs with
    | none =>
      rw [map_flag_of_any_false rs hany]
      simp [List.count_replicate]
    | some j => exact oneHot_count_le_one rs.length j
  · intro hpos
    have hany : rs.any (·.PrimaryKey) = true := (count_true_pos_iff_any rs).mp hpos
    rw [hflags]
    unfold specFlags
    rw [if_pos hany]

/-- Witness fixture for C5: a single resolver-flagged field. -/
def c5wObj : Object :=
  { name := "W5",
    fields := [
      { names := ["Uid"], tag := some "`gorm:\"column:uid;primaryKey\" json:\"u\"`",
        type := .ident "int" }] }

def c5wFields : List ModelFieldInfo :=
  [{ Name := "Uid", Typ := "int", Column := "uid", PrimaryKey := true, Comments := [] }]

def c5wModel : ModelInfo :=
  { Name := "W5",
    Fields := [{ Name := "Uid", Typ := "int", Column := "uid",
                 PrimaryKey := true, Comments := [] }],
    Comments := [] }

/-- C5 (witness): the amended statement at the concrete fixture. -/
theorem c5_amended_w :
    ((c5wFields.map (·.PrimaryKey)).count true = 0 →
      (c5wModel.Fields.map (·.PrimaryKey)).count true ≤ 1) ∧
    (0 < (c5wFields.map (·.PrimaryKey)).count true →
      c5wModel.Fields.map (·.PrimaryKey) = c5wFields.map (·.PrimaryKey)) :=
  c5_amended c5wObj c5wFields c5wModel (by decide) (by decide)

/-- C6 (counterexample): a field declaration whose resolved column is the
empty string — the gorm annotation parses, contains no `column:` token,
and the resolver applies no snake-case fallback on that branch. -/
theorem c6_counterexample :
    (buildModelFieldInfo
      { names := ["Score"], tag := some "`gorm:\"primary_key\" json:\"s\"`",
        type := .ident "int" }).map (·.Column) = some "" := by decide

/-- C6 (amended): the resolved column is non-empty in every case except
when the resolver reaches the gorm branch (present, sliceable tag with a
non-empty gorm value) and the token scan yields no non-empty column; in
exactly that case the column is empty. -/
theorem c6_amended (af : Field) (f : ModelFieldInfo)
    (hf : buildModelFieldInfo af = some f) (hname : f.Name ≠ "") :
    (f.Column = "" ↔
      ∃ g, gormTokensValue af.tag = some g ∧ (gormScan (splitSemi g)).1 = "") := by
  unfold buildModelFieldInfo at hf
  cases hnames : af.names with
  | nil => rw [hnames] at hf; exact Option.noConfusion hf
  | cons name restNames =>
    rw [hnames] at hf
    dsimp only at hf
    cases hcp : resolveColumnPK name af.tag with
    | none => rw [hcp] at hf; exact Option.noConfusion hf
    | some cp =>
      rw [hcp] at hf
      dsimp only at hf
      cases hf
      exact resolveColumnPK_empty_iff name af.tag cp hcp (by simpa using hname)

/-- Witness fixture for C6: the gorm-branch field with an empty column. -/
def c6wField : Field :=
  { names := ["Age"], tag := some "`gorm:\"primaryKey\" json:\"x\"`", type := .ident "int" }

def c6wInfo : ModelFieldInfo :=
  { Name := "Age", Typ := "int", Column := "", PrimaryKey := true, Comments := [] }

/-- C6 (witness): the amended statement at the concrete fixture. -/
theorem c6_amended_w :
    (c6wInfo.Column = "" ↔
      ∃ g, gormTokensValue c6wField.tag = some g ∧ (gormScan (splitSemi g)).1 = "") :=
  c6_amended c6wField c6wInfo (by decide) (by decide)

/-- C7: a field declaration with no tag resolves its column to the
snake-case transliteration described by the spec — replace every literal
`ID` with `id`, then insert an underscore before each non-initial
uppercase letter and lowercase it — and the spec's two examples hold. -/
theorem c7_snake_fallback (name : String) (restNames : List String) (ty : TypeExpr)
    (f : ModelFieldInfo)
    (hf : buildModelFieldInfo { names := name :: restNames, tag := none, type := ty } =
      some f) :
    f.Column = snakeSpec name ∧ snakeSpec "UserID" = "userid" ∧
      snakeSpec "UserName" = "user_name" := by
  refine ⟨?_, by decide, by decide⟩
  simp only [buildModelFieldInfo, resolveColumnPK] at hf
  cases hf
  exact snakeString_eq_snakeSpec name

def c7wInfo : ModelFieldInfo :=
  { Name := "UserName", Typ := "string", Column := "user_name",
    PrimaryKey := false, Comments := [] }

/-- C7 (witness): the statement at the concrete field `UserName`. -/
theorem c7_snake_fallback_w :
    c7wInfo.Column = snakeSpec "UserName" ∧ snakeSpec "UserID" = "userid" ∧
      snakeSpec "UserName" = "user_name" :=
  c7_snake_fallback "UserName" [] (.ident "string") c7wInfo (by decide)

/-- The five models of the C8 scenario. -/
def c8Models : List ModelInfo :=
  [{ Name := "A", Fields := [], Comments := [] },
   { Name := "B", Fields := [], Comments := [] },
   { Name := "C", Fields := [], Comments := [] },
   { Name := "D", Fields := [], Comments := [] },
   { Name := "E", Fields := [], Comments := [] }]

/-- C8: five 30-byte content blocks, a 10-byte header and `maxSize = 50`
produce exactly files 0 and 1 with header plus two blocks (70 bytes each)
and file 2 with header plus the last block (40 bytes). -/
theorem c8_scenario :
    generateFile 50 none none { out := "0123456789", err := none }
        (fun m => { out := m.Name ++ "01234567890123456789012345678", err := none })
        c8Models =
      { files := [
          (0, "0123456789A01234567890123456789012345678B01234567890123456789012345678"),
          (1, "0123456789C01234567890123456789012345678D01234567890123456789012345678"),
          (2, "0123456789E01234567890123456789012345678")],
        err := none } ∧
    ("0123456789A01234567890123456789012345678B01234567890123456789012345678" : String).length = 70 ∧
    ("0123456789C01234567890123456789012345678D01234567890123456789012345678" : String).length = 70 ∧
    ("0123456789E01234567890123456789012345678" : String).length = 40 := by
  refine ⟨by decide, by decide, by decide, by decide⟩

/-- C9: the GenerationContext is seeded by the first source unit of the
run — regardless of which units contain qualifying declarations — and no
later unit overwrites it. -/
theorem c9_once_seed (pkgKey : String) (f0 : GoFile) (rest : List GoFile)
    (res : RunState × List (Option Object))
    (h : getModelObjects pkgKey (f0 :: rest)
      { onceDone := false, packageMap := none } [] = some res) :
    res.1.packageMap = some (pkgKey, f0.pkgName) ∧ res.1.onceDone = true := by
  simp only [getModelObjects] at h
  cases hp : processFile f0.decls [] with
  | none => rw [hp] at h; exact Option.noConfusion h
  | some objs1 =>
    rw [hp] at h
    have hkeep := getModelObjects_keeps pkgKey rest
      { onceDone := true, packageMap := some (pkgKey, f0.pkgName) } objs1 res rfl h
    rw [hkeep]
    exact ⟨rfl, rfl⟩

/-- C9 (witness): the statement at a concrete two-unit run where only the
second unit holds a qualifying type. -/
theorem c9_once_seed_w :
    (({ onceDone := true, packageMap := some ("package", "models") },
        ([none] : List (Option Object))) :
        RunState × List (Option Object)).1.packageMap = some ("package", "models") ∧
    (({ onceDone := true, packageMap := some ("package", "models") },
        ([none] : List (Option Object))) :
        RunState × List (Option Object)).1.onceDone = true :=
  c9_once_seed "package" { pkgName := "models", decls := [] }
    [{ pkgName := "extra",
       decls := [Decl.funcDecl
         { recv := some [RecvType.ident none], name := "TableName",
           params := [], results := some [TypeExpr.ident "string"] }] }]
    ({ onceDone := true, packageMap := some ("package", "models") }, [none])
    (by decide)

/-- C10 (code bug): the classification pass is not total — a plain
top-level function has a nil receiver list and `decl.Recv.List`
(main.go:155) panics; a parameterless `TableName` method with no result
list reaches `decl.Type.Results.List` (main.go:164) and panics. -/
theorem c10_bug_eval :
    isTablerFunc { recv := none, name := "main", params := [], results := none } = none ∧
    isTablerFunc { recv := some [RecvType.ident none], name := "TableName",
                   params := [], results := none } = none := by
  exact ⟨by decide, by decide⟩

end GormTool
